import Mathlib

/-!
Verification of the polygon-mesh core (`include/polygon_mesh/core/mesh.hpp`,
`types.hpp`, `math/vector3.hpp`, `math/vector2.hpp`) against its specification.

Shallow embedding conventions:
* the scalar template parameter `T` (float/double) is modelled by `ℚ`;
* `std::sqrt` is modelled by an explicit function argument `sq : ℚ → ℚ`
  threaded to every operation whose C++ source calls `length()`;
* `std::numeric_limits<T>::max()` / `::lowest()` are modelled by explicit
  arguments `hi lo : ℚ`;
* C++ exceptions become `Except MeshError`;
* `std::uint32_t` IDs are modelled by `ℕ` (mesh sizes stay far below `2^32`;
  the sentinel constants keep their numeric values);
* unchecked `vertices_[vid]` indexing is modelled by `Option`-returning
  lookup (`Mesh.vertexPos?`) with a default fallback (`Mesh.posAt`).
-/

namespace PolygonMesh

/-- Embedding of `math::Vector3<T>` (vector3.hpp). -/
structure Vector3 where
  x : ℚ
  y : ℚ
  z : ℚ
deriving DecidableEq, Repr

/-- `Vector3(T value)` broadcast constructor. -/
def Vector3.splat (v : ℚ) : Vector3 := ⟨v, v, v⟩

/-- `Vector3()`: the zero vector. -/
def Vector3.zero : Vector3 := Vector3.splat 0

/-- `operator+`. -/
def Vector3.add (a b : Vector3) : Vector3 := ⟨a.x + b.x, a.y + b.y, a.z + b.z⟩

/-- `operator-`. -/
def Vector3.sub (a b : Vector3) : Vector3 := ⟨a.x - b.x, a.y - b.y, a.z - b.z⟩

/-- `operator* (T scalar)`. -/
def Vector3.mulScalar (a : Vector3) (s : ℚ) : Vector3 := ⟨a.x * s, a.y * s, a.z * s⟩

/-- `operator/ (T scalar)`. -/
def Vector3.divScalar (a : Vector3) (s : ℚ) : Vector3 := ⟨a.x / s, a.y / s, a.z / s⟩

/-- `Vector3::dot`. -/
def Vector3.dot (a b : Vector3) : ℚ := a.x * b.x + a.y * b.y + a.z * b.z

/-- `Vector3::cross`. -/
def Vector3.cross (a b : Vector3) : Vector3 :=
  ⟨a.y * b.z - a.z * b.y, a.z * b.x - a.x * b.z, a.x * b.y - a.y * b.x⟩

/-- `Vector3::length_squared`. -/
def Vector3.length_squared (a : Vector3) : ℚ := a.x * a.x + a.y * a.y + a.z * a.z

/-- `Vector3::length`, with `std::sqrt` as the explicit argument `sq`. -/
def Vector3.length (sq : ℚ → ℚ) (a : Vector3) : ℚ := sq a.length_squared

/-- `Vector3::normalize`: returns the zero vector when `length() == 0`. -/
def Vector3.normalize (sq : ℚ → ℚ) (a : Vector3) : Vector3 :=
  let len := Vector3.length sq a
  if len = 0 then Vector3.splat 0 else a.divScalar len

/-- `Vector3::normalize_in_place`: leaves the vector unchanged when
`length() == 0`. -/
def Vector3.normalize_in_place (sq : ℚ → ℚ) (a : Vector3) : Vector3 :=
  let len := Vector3.length sq a
  if len = 0 then a else a.divScalar len

/-- default epsilon `T(1e-6)` used by `is_zero`. -/
def default_epsilon : ℚ := 1 / 1000000

/-- `Vector3::is_zero(epsilon)`. -/
def Vector3.is_zero (a : Vector3) (eps : ℚ) : Bool :=
  decide (|a.x| < eps) && decide (|a.y| < eps) && decide (|a.z| < eps)

/-- Embedding of `math::Vector2<T>` (vector2.hpp); only storage and the
zero-sentinel test are used by the mesh core. -/
structure Vector2 where
  x : ℚ
  y : ℚ
deriving DecidableEq, Repr

/-- `Vector2()`: the zero vector. -/
def Vector2.zero : Vector2 := ⟨0, 0⟩

/-- `INVALID_VERTEX_ID = numeric_limits<uint32_t>::max()`. -/
def INVALID_VERTEX_ID : ℕ := 4294967295

/-- `INVALID_EDGE_ID`. -/
def INVALID_EDGE_ID : ℕ := 4294967295

/-- `INVALID_FACE_ID`. -/
def INVALID_FACE_ID : ℕ := 4294967295

/-- `INVALID_MATERIAL_ID`. -/
def INVALID_MATERIAL_ID : ℕ := 4294967295

/-- Embedding of `core::Vertex<T>` (types.hpp). -/
structure Vertex where
  position : Vector3
  normal : Vector3
  uv : Vector2
  id : ℕ
deriving DecidableEq, Repr

/-- `Vertex()` default constructor. -/
def Vertex.default : Vertex := ⟨Vector3.zero, Vector3.zero, Vector2.zero, INVALID_VERTEX_ID⟩

instance : Inhabited Vertex := ⟨Vertex.default⟩

/-- `Vertex(const Vector3& pos)`. -/
def Vertex.ofPosition (p : Vector3) : Vertex := ⟨p, Vector3.zero, Vector2.zero, INVALID_VERTEX_ID⟩

/-- Embedding of `core::Edge<T>` (types.hpp). -/
structure Edge where
  v1 : ℕ
  v2 : ℕ
  adjacent_faces : List ℕ
  id : ℕ
  is_boundary : Bool
deriving DecidableEq, Repr

/-- `Edge()` default constructor. -/
def Edge.default : Edge := ⟨INVALID_VERTEX_ID, INVALID_VERTEX_ID, [], INVALID_EDGE_ID, false⟩

instance : Inhabited Edge := ⟨Edge.default⟩

/-- `Edge::is_manifold`. -/
def Edge.is_manifold (e : Edge) : Bool := decide (e.adjacent_faces.length ≤ 2)

/-- `Edge::update_boundary_status`. -/
def Edge.update_boundary_status (e : Edge) : Edge :=
  { e with is_boundary := decide (e.adjacent_faces.length = 1) }

/-- Embedding of `core::Face<T>` (types.hpp). -/
structure Face where
  vertices : List ℕ
  normal : Vector3
  material_id : ℕ
  id : ℕ
deriving DecidableEq, Repr

/-- `Face()` default constructor. -/
def Face.default : Face := ⟨[], Vector3.zero, INVALID_MATERIAL_ID, INVALID_FACE_ID⟩

instance : Inhabited Face := ⟨Face.default⟩

/-- `Face(const std::vector<VertexId>& verts)`. -/
def Face.ofVertices (verts : List ℕ) : Face := ⟨verts, Vector3.zero, INVALID_MATERIAL_ID, INVALID_FACE_ID⟩

/-- `Face::vertex_count`. -/
def Face.vertex_count (f : Face) : ℕ := f.vertices.length

/-- `Face::is_triangle`. -/
def Face.is_triangle (f : Face) : Bool := decide (f.vertices.length = 3)

/-- `Face::is_valid`: at least 3 vertices. -/
def Face.is_valid (f : Face) : Bool := decide (3 ≤ f.vertices.length)

/-- `Face::has_normal`: normal not within epsilon of zero. -/
def Face.has_normal (f : Face) : Bool := !(f.normal.is_zero default_epsilon)

/-- `Face::get_edges`: consecutive cyclic vertex pairs, canonicalized
low-index-first; empty for faces with fewer than 3 vertices. -/
def Face.get_edges (f : Face) : List (ℕ × ℕ) :=
  if f.vertices.length < 3 then []
  else (List.range f.vertices.length).map (fun i =>
    let a := f.vertices.getD i 0
    let b := f.vertices.getD ((i + 1) % f.vertices.length) 0
    if b < a then (b, a) else (a, b))

/-- Embedding of `core::BoundingBox<T>` (types.hpp). -/
structure BoundingBox where
  min_point : Vector3
  max_point : Vector3
deriving DecidableEq, Repr

/-- `BoundingBox::reset`, with `numeric_limits<T>::max()` as `hi` and
`numeric_limits<T>::lowest()` as `lo`. -/
def BoundingBox.reset (hi lo : ℚ) : BoundingBox := ⟨Vector3.splat hi, Vector3.splat lo⟩

/-- `BoundingBox::expand(point)`: componentwise min/max absorption. -/
def BoundingBox.expand (b : BoundingBox) (p : Vector3) : BoundingBox :=
  ⟨⟨min b.min_point.x p.x, min b.min_point.y p.y, min b.min_point.z p.z⟩,
   ⟨max b.max_point.x p.x, max b.max_point.y p.y, max b.max_point.z p.z⟩⟩

/-- Error taxonomy: `std::invalid_argument` / `std::out_of_range`. -/
inductive MeshError where
  | invalidArgument (msg : String)
  | outOfRange (msg : String)
deriving DecidableEq, Repr

/-- Embedding of `core::Mesh<T>` (mesh.hpp): the member state. The
`unordered_map` edge index is an association list; the mutable cached
bounding box and its dirty flag are explicit fields. -/
@[ext]
structure Mesh where
  vertices : List Vertex
  edges : List Edge
  faces : List Face
  edge_map : List ((ℕ × ℕ) × ℕ)
  topology_valid : Bool
  bounding_box_dirty : Bool
  bounding_box_cache : BoundingBox
deriving DecidableEq, Repr

/-- `Mesh()` default constructor: empty arrays, `topology_valid_=true`,
`bounding_box_dirty_=true`, default-constructed (reset) cached box. -/
def Mesh.empty (hi lo : ℚ) : Mesh :=
  ⟨[], [], [], [], true, true, BoundingBox.reset hi lo⟩

/-- `Mesh::vertex_count`. -/
def Mesh.vertex_count (m : Mesh) : ℕ := m.vertices.length

/-- `Mesh::edge_count`. -/
def Mesh.edge_count (m : Mesh) : ℕ := m.edges.length

/-- `Mesh::face_count`. -/
def Mesh.face_count (m : Mesh) : ℕ := m.faces.length

/-- `Mesh::add_vertex(const Vertex&)`: overwrites the vertex id with the
fresh sequential id, appends, marks the bounding box dirty. -/
def Mesh.add_vertex (m : Mesh) (vertex : Vertex) : Mesh × ℕ :=
  let id := m.vertices.length
  ({ m with
      vertices := m.vertices ++ [{ vertex with id := id }],
      bounding_box_dirty := true }, id)

/-- `Mesh::add_face`: throws `invalid_argument` for fewer than 3 indices,
`out_of_range` for any index `>= vertices_.size()`; on success appends one
`Face` carrying the fresh sequential id. The edge-topology update present
in the source is commented out (`// update_edges_for_face(face_id);`),
which this embedding reproduces. -/
def Mesh.add_face (m : Mesh) (vertex_indices : List ℕ) : Except MeshError (Mesh × ℕ) :=
  if vertex_indices.length < 3 then
    .error (.invalidArgument "Face must have at least 3 vertices")
  else if vertex_indices.any (fun vid => decide (m.vertices.length ≤ vid)) then
    .error (.outOfRange "Invalid vertex index")
  else
    let face_id := m.faces.length
    .ok ({ m with faces := m.faces ++ [{ Face.ofVertices vertex_indices with id := face_id }] },
         face_id)

/-- `Mesh::add_triangle`. -/
def Mesh.add_triangle (m : Mesh) (a b c : ℕ) : Except MeshError (Mesh × ℕ) :=
  m.add_face [a, b, c]

/-- `Mesh::add_quad`. -/
def Mesh.add_quad (m : Mesh) (a b c d : ℕ) : Except MeshError (Mesh × ℕ) :=
  m.add_face [a, b, c, d]

/-- The `vertices_[vid]` position lookup, made `Option`-returning. -/
def Mesh.vertexPos? (m : Mesh) (vid : ℕ) : Option Vector3 :=
  (m.vertices.get? vid).map Vertex.position

/-- Position lookup with the default fallback used to totalize the C++
unchecked indexing. -/
def Mesh.posAt (m : Mesh) (vid : ℕ) : Vector3 :=
  (m.vertexPos? vid).getD Vector3.zero

/-- `Mesh::get_vertex(id) const`. -/
def Mesh.get_vertex (m : Mesh) (id : ℕ) : Except MeshError Vertex :=
  if h : id < m.vertices.length then .ok (m.vertices.get ⟨id, h⟩)
  else .error (.outOfRange "Invalid vertex ID")

/-- `Mesh::get_vertex(id)` (mutable overload): marks the bounding box dirty
before handing out the vertex. -/
def Mesh.get_vertex_mut (m : Mesh) (id : ℕ) : Except MeshError (Mesh × Vertex) :=
  if h : id < m.vertices.length then
    .ok ({ m with bounding_box_dirty := true }, m.vertices.get ⟨id, h⟩)
  else .error (.outOfRange "Invalid vertex ID")

/-- `Mesh::get_face(id) const`. -/
def Mesh.get_face (m : Mesh) (id : ℕ) : Except MeshError Face :=
  if h : id < m.faces.length then .ok (m.faces.get ⟨id, h⟩)
  else .error (.outOfRange "Invalid face ID")

/-- `Mesh::get_edge(id) const`. -/
def Mesh.get_edge (m : Mesh) (id : ℕ) : Except MeshError Edge :=
  if h : id < m.edges.length then .ok (m.edges.get ⟨id, h⟩)
  else .error (.outOfRange "Invalid edge ID")

/-- The Newell accumulation loop of `Mesh::compute_face_normal`. -/
def Mesh.newellNormal (m : Mesh) (verts : List ℕ) : Vector3 :=
  (List.range verts.length).foldl
    (fun n i =>
      let v1 := m.posAt (verts.getD i 0)
      let v2 := m.posAt (verts.getD ((i + 1) % verts.length) 0)
      ⟨n.x + (v1.y - v2.y) * (v1.z + v2.z),
       n.y + (v1.z - v2.z) * (v1.x + v2.x),
       n.z + (v1.x - v2.x) * (v1.y + v2.y)⟩)
    Vector3.zero

/-- `Mesh::compute_face_normal(Face&)`: zero normal for faces with fewer
than 3 vertices, otherwise the normalized Newell sum. -/
def Mesh.compute_face_normal (m : Mesh) (sq : ℚ → ℚ) (f : Face) : Face :=
  if f.vertices.length < 3 then { f with normal := Vector3.splat 0 }
  else { f with normal := Vector3.normalize sq (m.newellNormal f.vertices) }

/-- `Mesh::compute_face_normals`. -/
def Mesh.compute_face_normals (m : Mesh) (sq : ℚ → ℚ) : Mesh :=
  { m with faces := m.faces.map (m.compute_face_normal sq) }

/-- The `vertices_[vid].normal += face.normal` accumulation step, totalized
to a no-op out of range. -/
def addNormalAt (vs : List Vertex) (vid : ℕ) (n : Vector3) : List Vertex :=
  match vs.get? vid with
  | none => vs
  | some v => vs.set vid { v with normal := v.normal.add n }

/-- The reset loop of `Mesh::compute_vertex_normals`: every vertex normal
becomes `Vector3(0)`. -/
def resetNormals (vs : List Vertex) : List Vertex :=
  vs.map (fun v => { v with normal := Vector3.splat 0 })

/-- The accumulation loop of `Mesh::compute_vertex_normals`: each face with
a non-zero normal adds its normal into every vertex it references. -/
def accumNormals (fs : List Face) (vs : List Vertex) : List Vertex :=
  fs.foldl
    (fun acc f =>
      if f.has_normal then f.vertices.foldl (fun a vid => addNormalAt a vid f.normal) acc
      else acc)
    vs

/-- The final loop of `Mesh::compute_vertex_normals`: normalize each vertex
normal in place. -/
def normalizeAll (sq : ℚ → ℚ) (vs : List Vertex) : List Vertex :=
  vs.map (fun v => { v with normal := v.normal.normalize_in_place sq })

/-- `Mesh::compute_vertex_normals`: reset all vertex normals, accumulate
each face normal (when `has_normal()`) into the face's vertices, then
normalize each vertex normal in place. -/
def Mesh.compute_vertex_normals (m : Mesh) (sq : ℚ → ℚ) : Mesh :=
  { m with vertices := normalizeAll sq (accumNormals m.faces (resetNormals m.vertices)) }

/-- `Mesh::compute_normals`: face normals, then vertex normals. -/
def Mesh.compute_normals (m : Mesh) (sq : ℚ → ℚ) : Mesh :=
  (m.compute_face_normals sq).compute_vertex_normals sq

/-- `Mesh::compute_bounding_box`: reset, then expand over every vertex
position. -/
def Mesh.compute_bounding_box (m : Mesh) (hi lo : ℚ) : BoundingBox :=
  m.vertices.foldl (fun b v => b.expand v.position) (BoundingBox.reset hi lo)

/-- `Mesh::bounding_box`: return the cached box, recomputing and clearing
the dirty flag first iff the flag is set. -/
def Mesh.bounding_box (m : Mesh) (hi lo : ℚ) : BoundingBox × Mesh :=
  if m.bounding_box_dirty then
    let bb := m.compute_bounding_box hi lo
    (bb, { m with bounding_box_cache := bb, bounding_box_dirty := false })
  else (m.bounding_box_cache, m)

/-- The seen-set loop detecting a repeated vertex index within one face. -/
def hasDuplicateFrom (seen : List ℕ) : List ℕ → Bool
  | [] => false
  | vid :: rest => if seen.contains vid then true else hasDuplicateFrom (vid :: seen) rest

/-- `Mesh::validate_topology`: false on any duplicate vertex position, any
invalid face (fewer than 3 vertices) or repeated index within a face, or
any non-manifold edge; true otherwise. Never throws (total `Bool`-valued
function) and never mutates (it does not touch any `mutable` member). -/
def Mesh.validate_topology (m : Mesh) : Bool :=
  if (List.range m.vertices.length).any (fun i =>
       (List.range m.vertices.length).any (fun j =>
         decide (i < j) && decide (m.posAt i = m.posAt j))) then false
  else if m.faces.any (fun f => !f.is_valid || hasDuplicateFrom [] f.vertices) then false
  else if m.edges.any (fun e => !e.is_manifold) then false
  else true

/-- `Mesh::empty()`. -/
def Mesh.is_empty (m : Mesh) : Bool :=
  m.vertices.isEmpty && m.faces.isEmpty

/-- `Mesh::clear`: empties all arrays and the edge index, resets flags; the
cached box value itself is left as-is. -/
def Mesh.clear (m : Mesh) : Mesh :=
  { m with
      vertices := [], edges := [], faces := [], edge_map := [],
      topology_valid := true, bounding_box_dirty := true }

/-- `Mesh::compute_triangle_area`: zero for non-triangles, else half the
cross-product length. -/
def Mesh.compute_triangle_area (m : Mesh) (sq : ℚ → ℚ) (f : Face) : ℚ :=
  if !f.is_triangle then 0
  else
    let v0 := m.posAt (f.vertices.getD 0 0)
    let v1 := m.posAt (f.vertices.getD 1 0)
    let v2 := m.posAt (f.vertices.getD 2 0)
    Vector3.length sq ((v1.sub v0).cross (v2.sub v0)) * (1 / 2)

/-- `Mesh::surface_area`: per-face triangle area, fan-triangulating
non-triangle faces from vertex 0. -/
def Mesh.surface_area (m : Mesh) (sq : ℚ → ℚ) : ℚ :=
  m.faces.foldl
    (fun area f =>
      if f.is_triangle then area + m.compute_triangle_area sq f
      else
        (List.range' 1 (f.vertices.length - 2)).foldl
          (fun a i =>
            a + m.compute_triangle_area sq
              (Face.ofVertices [f.vertices.getD 0 0, f.vertices.getD i 0, f.vertices.getD (i + 1) 0]))
          area)
    0

/-- `Mesh::volume`: divergence-theorem signed tetrahedron sum,
fan-triangulated from vertex 0, skipping faces with fewer than 3 vertices;
final result `|sum| / 6`. -/
def Mesh.volume (m : Mesh) : ℚ :=
  let total := m.faces.foldl
    (fun vol f =>
      if f.vertices.length < 3 then vol
      else
        let v0 := m.posAt (f.vertices.getD 0 0)
        (List.range' 1 (f.vertices.length - 2)).foldl
          (fun v i =>
            v + v0.dot ((m.posAt (f.vertices.getD i 0)).cross (m.posAt (f.vertices.getD (i + 1) 0))))
          vol)
    0
  |total| / 6

instance {ε α : Type} [DecidableEq ε] [DecidableEq α] : DecidableEq (Except ε α) := fun a b =>
  match a, b with
  | .ok x, .ok y =>
      if h : x = y then .isTrue (by rw [h])
      else .isFalse (by intro hc; injection hc; contradiction)
  | .error x, .error y =>
      if h : x = y then .isTrue (by rw [h])
      else .isFalse (by intro hc; injection hc; contradiction)
  | .ok x, .error y => .isFalse (fun hc => Except.noConfusion hc)
  | .error x, .ok y => .isFalse (fun hc => Except.noConfusion hc)

/-- Public-API operations on a mesh, for trace-based reasoning about
meshes built through the API. `setPosition` models writing a position
through the mutable `get_vertex` reference. -/
inductive Op where
  | addVertex (v : Vertex)
  | addFace (idxs : List ℕ)
  | addTriangle (a b c : ℕ)
  | addQuad (a b c d : ℕ)
  | setPosition (id : ℕ) (p : Vector3)
  | clearAll
  | faceNormalsOp
  | vertexNormalsOp
  | normalsOp
  | readBoundingBox
deriving DecidableEq, Repr

/-- One API call; a call that throws leaves the mesh as it was (the C++
object outlives the exception). -/
def runOp (sq : ℚ → ℚ) (hi lo : ℚ) (m : Mesh) : Op → Mesh
  | .addVertex v => (m.add_vertex v).1
  | .addFace idxs =>
      match m.add_face idxs with
      | .ok (m2, _) => m2
      | .error _ => m
  | .addTriangle a b c =>
      match m.add_triangle a b c with
      | .ok (m2, _) => m2
      | .error _ => m
  | .addQuad a b c d =>
      match m.add_quad a b c d with
      | .ok (m2, _) => m2
      | .error _ => m
  | .setPosition id p =>
      match m.get_vertex_mut id with
      | .ok (m2, v) => { m2 with vertices := m2.vertices.set id { v with position := p } }
      | .error _ => m
  | .clearAll => m.clear
  | .faceNormalsOp => m.compute_face_normals sq
  | .vertexNormalsOp => m.compute_vertex_normals sq
  | .normalsOp => m.compute_normals sq
  | .readBoundingBox => (m.bounding_box hi lo).2

/-- Run a sequence of API calls starting from the freshly constructed
mesh. -/
def exec (sq : ℚ → ℚ) (hi lo : ℚ) (ops : List Op) : Mesh :=
  ops.foldl (runOp sq hi lo) (Mesh.empty hi lo)

/-- Spec-side reading of Newell's method: componentwise sums over the
consecutive cyclic vertex pairs of the face. -/
def Mesh.newellSpec (m : Mesh) (verts : List ℕ) : Vector3 :=
  ⟨∑ i in Finset.range verts.length,
      (let v1 := m.posAt (verts.getD i 0)
       let v2 := m.posAt (verts.getD ((i + 1) % verts.length) 0)
       (v1.y - v2.y) * (v1.z + v2.z)),
   ∑ i in Finset.range verts.length,
      (let v1 := m.posAt (verts.getD i 0)
       let v2 := m.posAt (verts.getD ((i + 1) % verts.length) 0)
       (v1.z - v2.z) * (v1.x + v2.x)),
   ∑ i in Finset.range verts.length,
      (let v1 := m.posAt (verts.getD i 0)
       let v2 := m.posAt (verts.getD ((i + 1) % verts.length) 0)
       (v1.x - v2.x) * (v1.y + v2.y))⟩

/-- Spec-side reading of the divergence-theorem volume: for each face with
at least 3 vertices, sum `dot(v0, cross(v_i, v_{i+1}))` over the fan
triangles `i = 1 .. k-2`; the volume is the absolute value of the total
divided by 6. -/
def Mesh.volumeSpec (m : Mesh) : ℚ :=
  |(m.faces.map (fun f =>
      if f.vertices.length < 3 then 0
      else
        ∑ i in Finset.Ico 1 (f.vertices.length - 1),
          (m.posAt (f.vertices.getD 0 0)).dot
            ((m.posAt (f.vertices.getD i 0)).cross (m.posAt (f.vertices.getD (i + 1) 0))))).sum| / 6

/-- `a` is the least element of the list `l`. -/
def isMinOf (a : ℚ) (l : List ℚ) : Prop := a ∈ l ∧ ∀ b ∈ l, a ≤ b

/-- `a` is the greatest element of the list `l`. -/
def isMaxOf (a : ℚ) (l : List ℚ) : Prop := a ∈ l ∧ ∀ b ∈ l, b ≤ a

/-- The box is the componentwise min/max envelope of the given points. -/
def isMinMaxBoxOf (bb : BoundingBox) (ps : List Vector3) : Prop :=
  isMinOf bb.min_point.x (ps.map Vector3.x) ∧
  isMinOf bb.min_point.y (ps.map Vector3.y) ∧
  isMinOf bb.min_point.z (ps.map Vector3.z) ∧
  isMaxOf bb.max_point.x (ps.map Vector3.x) ∧
  isMaxOf bb.max_point.y (ps.map Vector3.y) ∧
  isMaxOf bb.max_point.z (ps.map Vector3.z)

/-- Every coordinate of `p` lies within the representable range
`[lo, hi]` modelling `[numeric_limits::lowest(), numeric_limits::max()]`. -/
def inLimits (hi lo : ℚ) (p : Vector3) : Prop :=
  lo ≤ p.x ∧ p.x ≤ hi ∧ lo ≤ p.y ∧ p.y ≤ hi ∧ lo ≤ p.z ∧ p.z ≤ hi

instance (hi lo : ℚ) (p : Vector3) : Decidable (inLimits hi lo p) := by
  unfold inLimits
  infer_instance

/-- The cached bounding box is coherent: whenever the dirty flag is clear,
the cache holds exactly the recomputed box. -/
def cacheOK (hi lo : ℚ) (m : Mesh) : Prop :=
  m.bounding_box_dirty = false → m.bounding_box_cache = m.compute_bounding_box hi lo

/-- ID density: `vertices[i].id == i` and `faces[i].id == i`. -/
def idDense (m : Mesh) : Prop :=
  m.vertices.map Vertex.id = List.range m.vertices.length ∧
  m.faces.map Face.id = List.range m.faces.length

/-- Every vertex index stored in any face is in bounds. -/
def facesInBounds (m : Mesh) : Prop :=
  ∀ f ∈ m.faces, ∀ vid ∈ f.vertices, vid < m.vertices.length

/-- The combined invariant maintained by every public API call. -/
def meshInv (hi lo : ℚ) (m : Mesh) : Prop :=
  idDense m ∧ facesInBounds m ∧ cacheOK hi lo m

/-- A concrete stand-in for `std::sqrt` used when witnesses instantiate the
`sq` parameter (the statements themselves quantify over `sq`). -/
def sqModel : ℚ → ℚ := fun q => q

/-- Concrete `hi` used by witnesses for `numeric_limits<T>::max()`. -/
def hiModel : ℚ := 1000000

/-- Concrete `lo` used by witnesses for `numeric_limits<T>::lowest()`. -/
def loModel : ℚ := -1000000

/-- The API calls of `tests/mesh_test.cpp::test_mesh_topology`: three
vertices at pairwise-distinct positions, one triangle over them. -/
def triOps : List Op :=
  [.addVertex (Vertex.ofPosition ⟨0, 0, 0⟩),
   .addVertex (Vertex.ofPosition ⟨1, 0, 0⟩),
   .addVertex (Vertex.ofPosition ⟨0, 1, 0⟩),
   .addTriangle 0 1 2]

/-- The mesh produced by `triOps`. -/
def triMesh : Mesh := exec sqModel hiModel loModel triOps

/-- API calls building a closed side-2 cube (vertices at `±1` on each axis,
12 triangulated faces, outward orientation). -/
def cubeOps : List Op :=
  [.addVertex (Vertex.ofPosition ⟨-1, -1, -1⟩),
   .addVertex (Vertex.ofPosition ⟨1, -1, -1⟩),
   .addVertex (Vertex.ofPosition ⟨1, 1, -1⟩),
   .addVertex (Vertex.ofPosition ⟨-1, 1, -1⟩),
   .addVertex (Vertex.ofPosition ⟨-1, -1, 1⟩),
   .addVertex (Vertex.ofPosition ⟨1, -1, 1⟩),
   .addVertex (Vertex.ofPosition ⟨1, 1, 1⟩),
   .addVertex (Vertex.ofPosition ⟨-1, 1, 1⟩),
   .addFace [0, 3, 2], .addFace [0, 2, 1],
   .addFace [4, 5, 6], .addFace [4, 6, 7],
   .addFace [0, 1, 5], .addFace [0, 5, 4],
   .addFace [2, 3, 7], .addFace [2, 7, 6],
   .addFace [0, 4, 7], .addFace [0, 7, 3],
   .addFace [1, 2, 6], .addFace [1, 6, 5]]

/-- The mesh produced by `cubeOps`. -/
def cubeMesh : Mesh := exec sqModel hiModel loModel cubeOps

/-- `Mesh::update_edges_for_face` — present in the source but never called
from `add_face` (the call is commented out there). -/
def Mesh.update_edges_for_face (m : Mesh) (face_id : ℕ) : Mesh :=
  let f := m.faces.getD face_id Face.default
  f.get_edges.foldl
    (fun acc ep =>
      match acc.edge_map.lookup ep with
      | none =>
          let edge_id := acc.edges.length
          let e : Edge := ⟨ep.1, ep.2, [face_id], edge_id, true⟩
          { acc with edges := acc.edges ++ [e], edge_map := (ep, edge_id) :: acc.edge_map }
      | some eid =>
          match acc.edges.get? eid with
          | none => acc
          | some e =>
              let e2 := Edge.update_boundary_status { e with adjacent_faces := e.adjacent_faces ++ [face_id] }
              { acc with edges := acc.edges.set eid e2 })
    m

/-! ## Helper lemmas -/

theorem set_of_get?_eq {α : Type} (l : List α) (i : ℕ) (a : α)
    (h : l.get? i = some a) : l.set i a = l := by
  induction l generalizing i with
  | nil => simp at h
  | cons x xs ih =>
    cases i with
    | zero => simp_all
    | succ n =>
      simp only [List.get?_cons_succ] at h
      simp [ih n h]

theorem map_addNormalAt {α : Type} (g : Vertex → α)
    (hg : ∀ v n, g { v with normal := n } = g v) (vs : List Vertex) (vid : ℕ) (n : Vector3) :
    (addNormalAt vs vid n).map g = vs.map g := by
  unfold addNormalAt
  cases h : vs.get? vid with
  | none => rfl
  | some v =>
    rw [List.map_set, hg]
    exact set_of_get?_eq _ _ _ (by rw [List.get?_map, h]; rfl)

theorem map_accumOne {α : Type} (g : Vertex → α)
    (hg : ∀ v n, g { v with normal := n } = g v) (vids : List ℕ) (n : Vector3) :
    ∀ vs : List Vertex, (vids.foldl (fun a vid => addNormalAt a vid n) vs).map g = vs.map g := by
  induction vids with
  | nil => intro vs; rfl
  | cons vid rest ih =>
    intro vs
    simp only [List.foldl_cons]
    rw [ih, map_addNormalAt g hg]

theorem map_accumNormals {α : Type} (g : Vertex → α)
    (hg : ∀ v n, g { v with normal := n } = g v) (fs : List Face) :
    ∀ vs : List Vertex, (accumNormals fs vs).map g = vs.map g := by
  induction fs with
  | nil => intro vs; rfl
  | cons f rest ih =>
    intro vs
    unfold accumNormals
    simp only [List.foldl_cons]
    cases h : f.has_normal with
    | true =>
      simp only [if_true]
      rw [show (List.foldl
          (fun acc f =>
            if f.has_normal = true then List.foldl (fun a vid => addNormalAt a vid f.normal) acc f.vertices
            else acc)
          (List.foldl (fun a vid => addNormalAt a vid f.normal) vs f.vertices) rest : List Vertex)
        = accumNormals rest (List.foldl (fun a vid => addNormalAt a vid f.normal) vs f.vertices) from rfl]
      rw [ih, map_accumOne g hg]
    | false =>
      simp only [Bool.false_eq_true, if_false]
      rw [show (List.foldl
          (fun acc f =>
            if f.has_normal = true then List.foldl (fun a vid => addNormalAt a vid f.normal) acc f.vertices
            else acc)
          vs rest : List Vertex) = accumNormals rest vs from rfl]
      rw [ih]

theorem map_resetNormals {α : Type} (g : Vertex → α)
    (hg : ∀ v n, g { v with normal := n } = g v) (vs : List Vertex) :
    (resetNormals vs).map g = vs.map g := by
  unfold resetNormals
  rw [List.map_map]
  exact List.map_congr_left (fun v _ => hg v _)

theorem map_normalizeAll {α : Type} (g : Vertex → α)
    (hg : ∀ v n, g { v with normal := n } = g v) (sq : ℚ → ℚ) (vs : List Vertex) :
    (normalizeAll sq vs).map g = vs.map g := by
  unfold normalizeAll
  rw [List.map_map]
  exact List.map_congr_left (fun v _ => hg v _)

theorem length_accumNormals (fs : List Face) (vs : List Vertex) :
    (accumNormals fs vs).length = vs.length := by
  have h := map_accumNormals (g := Vertex.id) (fun v n => rfl) fs vs
  have := congrArg List.length h
  simpa using this

theorem add_face_short (m : Mesh) (idxs : List ℕ) (h : idxs.length < 3) :
    m.add_face idxs = .error (.invalidArgument "Face must have at least 3 vertices") := by
  unfold Mesh.add_face
  rw [if_pos h]

theorem add_face_oob (m : Mesh) (idxs : List ℕ) (h3 : ¬ idxs.length < 3)
    (hb : ∃ vid ∈ idxs, m.vertices.length ≤ vid) :
    m.add_face idxs = .error (.outOfRange "Invalid vertex index") := by
  unfold Mesh.add_face
  rw [if_neg h3, if_pos]
  rw [List.any_eq_true]
  obtain ⟨vid, hmem, hge⟩ := hb
  exact ⟨vid, hmem, by simpa using hge⟩

theorem add_face_ok (m : Mesh) (idxs : List ℕ) (h3 : ¬ idxs.length < 3)
    (hb : ∀ vid ∈ idxs, vid < m.vertices.length) :
    m.add_face idxs =
      .ok ({ m with faces := m.faces ++ [{ Face.ofVertices idxs with id := m.faces.length }] },
           m.faces.length) := by
  unfold Mesh.add_face
  rw [if_neg h3, if_neg]
  intro hany
  rw [List.any_eq_true] at hany
  obtain ⟨vid, hmem, hge⟩ := hany
  exact absurd (hb vid hmem) (by simpa using hge)

theorem runOp_addVertex (sq : ℚ → ℚ) (hi lo : ℚ) (m : Mesh) (v : Vertex) :
    runOp sq hi lo m (.addVertex v) =
      { m with vertices := m.vertices ++ [{ v with id := m.vertices.length }],
               bounding_box_dirty := true } := rfl

theorem runOp_addFace_cases (sq : ℚ → ℚ) (hi lo : ℚ) (m : Mesh) (idxs : List ℕ) :
    runOp sq hi lo m (.addFace idxs) = m ∨
    (3 ≤ idxs.length ∧ (∀ vid ∈ idxs, vid < m.vertices.length) ∧
      runOp sq hi lo m (.addFace idxs) =
        { m with faces := m.faces ++ [{ Face.ofVertices idxs with id := m.faces.length }] }) := by
  by_cases h3 : idxs.length < 3
  · left
    show (match m.add_face idxs with
          | .ok (m2, _) => m2
          | .error _ => m) = m
    rw [add_face_short m idxs h3]
  · by_cases hb : ∀ vid ∈ idxs, vid < m.vertices.length
    · right
      refine ⟨Nat.le_of_not_lt h3, hb, ?_⟩
      show (match m.add_face idxs with
            | .ok (m2, _) => m2
            | .error _ => m) = _
      rw [add_face_ok m idxs h3 hb]
    · left
      push_neg at hb
      show (match m.add_face idxs with
            | .ok (m2, _) => m2
            | .error _ => m) = m
      rw [add_face_oob m idxs h3 (by simpa using hb)]

theorem runOp_addTriangle (sq : ℚ → ℚ) (hi lo : ℚ) (m : Mesh) (a b c : ℕ) :
    runOp sq hi lo m (.addTriangle a b c) = runOp sq hi lo m (.addFace [a, b, c]) := rfl

theorem runOp_addQuad (sq : ℚ → ℚ) (hi lo : ℚ) (m : Mesh) (a b c d : ℕ) :
    runOp sq hi lo m (.addQuad a b c d) = runOp sq hi lo m (.addFace [a, b, c, d]) := rfl

theorem runOp_setPosition_cases (sq : ℚ → ℚ) (hi lo : ℚ) (m : Mesh) (id : ℕ) (p : Vector3) :
    runOp sq hi lo m (.setPosition id p) = m ∨
    ∃ h : id < m.vertices.length,
      runOp sq hi lo m (.setPosition id p) =
        { m with bounding_box_dirty := true,
                 vertices := m.vertices.set id { m.vertices.get ⟨id, h⟩ with position := p } } := by
  have hrun : runOp sq hi lo m (.setPosition id p) =
      (match m.get_vertex_mut id with
       | .ok (m2, v) => { m2 with vertices := m2.vertices.set id { v with position := p } }
       | .error _ => m) := rfl
  by_cases h : id < m.vertices.length
  · right
    refine ⟨h, ?_⟩
    rw [hrun]
    unfold Mesh.get_vertex_mut
    rw [dif_pos h]
  · left
    rw [hrun]
    unfold Mesh.get_vertex_mut
    rw [dif_neg h]

theorem runOp_clear (sq : ℚ → ℚ) (hi lo : ℚ) (m : Mesh) :
    runOp sq hi lo m .clearAll = m.clear := rfl

theorem cfn_face_vertices (m : Mesh) (sq : ℚ → ℚ) (f : Face) :
    (m.compute_face_normal sq f).vertices = f.vertices := by
  unfold Mesh.compute_face_normal
  split <;> rfl

theorem cfn_face_id (m : Mesh) (sq : ℚ → ℚ) (f : Face) :
    (m.compute_face_normal sq f).id = f.id := by
  unfold Mesh.compute_face_normal
  split <;> rfl

theorem cbb_eq_fold_positions (m : Mesh) (hi lo : ℚ) :
    m.compute_bounding_box hi lo =
      (m.vertices.map Vertex.position).foldl BoundingBox.expand (BoundingBox.reset hi lo) := by
  unfold Mesh.compute_bounding_box
  rw [List.foldl_map]

theorem cbb_congr (hi lo : ℚ) (m1 m2 : Mesh)
    (h : m1.vertices.map Vertex.position = m2.vertices.map Vertex.position) :
    m1.compute_bounding_box hi lo = m2.compute_bounding_box hi lo := by
  rw [cbb_eq_fold_positions, cbb_eq_fold_positions, h]

theorem cvn_positions (m : Mesh) (sq : ℚ → ℚ) :
    (m.compute_vertex_normals sq).vertices.map Vertex.position = m.vertices.map Vertex.position := by
  show (normalizeAll sq (accumNormals m.faces (resetNormals m.vertices))).map Vertex.position = _
  rw [map_normalizeAll Vertex.position (fun v n => rfl),
    map_accumNormals Vertex.position (fun v n => rfl),
    map_resetNormals Vertex.position (fun v n => rfl)]

theorem meshInv_addFace (sq : ℚ → ℚ) (hi lo : ℚ) (m : Mesh) (idxs : List ℕ)
    (h : meshInv hi lo m) : meshInv hi lo (runOp sq hi lo m (.addFace idxs)) := by
  obtain ⟨⟨hdv, hdf⟩, hfb, hcc⟩ := h
  rcases runOp_addFace_cases sq hi lo m idxs with heq | ⟨h3, hb, heq⟩
  · rw [heq]; exact ⟨⟨hdv, hdf⟩, hfb, hcc⟩
  · rw [heq]
    refine ⟨⟨hdv, ?_⟩, ?_, ?_⟩
    · show (m.faces ++ [{ Face.ofVertices idxs with id := m.faces.length }]).map Face.id
        = List.range (m.faces ++ [{ Face.ofVertices idxs with id := m.faces.length }]).length
      rw [List.map_append, hdf]
      simp [List.range_succ]
    · intro f hf vid hv
      rcases List.mem_append.mp hf with hf2 | hf2
      · exact hfb f hf2 vid hv
      · simp only [List.mem_singleton] at hf2
        subst hf2
        exact hb vid hv
    · intro hd
      exact (hcc hd).trans (cbb_congr hi lo m _ rfl)

theorem meshInv_cfn (sq : ℚ → ℚ) (hi lo : ℚ) (m : Mesh)
    (h : meshInv hi lo m) : meshInv hi lo (m.compute_face_normals sq) := by
  obtain ⟨⟨hdv, hdf⟩, hfb, hcc⟩ := h
  refine ⟨⟨hdv, ?_⟩, ?_, ?_⟩
  · show (m.faces.map (m.compute_face_normal sq)).map Face.id
      = List.range (m.faces.map (m.compute_face_normal sq)).length
    rw [List.map_map, List.length_map]
    rw [show (Face.id ∘ m.compute_face_normal sq) = Face.id from funext (cfn_face_id m sq)]
    exact hdf
  · intro f hf vid hv
    obtain ⟨f0, hf0, rfl⟩ := List.mem_map.mp hf
    rw [cfn_face_vertices] at hv
    exact hfb f0 hf0 vid hv
  · intro hd
    exact (hcc hd).trans (cbb_congr hi lo m _ rfl)

theorem meshInv_cvn (sq : ℚ → ℚ) (hi lo : ℚ) (m : Mesh)
    (h : meshInv hi lo m) : meshInv hi lo (m.compute_vertex_normals sq) := by
  obtain ⟨⟨hdv, hdf⟩, hfb, hcc⟩ := h
  have hmapid : (m.compute_vertex_normals sq).vertices.map Vertex.id = m.vertices.map Vertex.id := by
    show (normalizeAll sq (accumNormals m.faces (resetNormals m.vertices))).map Vertex.id = _
    rw [map_normalizeAll Vertex.id (fun v n => rfl),
      map_accumNormals Vertex.id (fun v n => rfl),
      map_resetNormals Vertex.id (fun v n => rfl)]
  have hlen : (m.compute_vertex_normals sq).vertices.length = m.vertices.length := by
    have := congrArg List.length hmapid
    simpa using this
  refine ⟨⟨?_, hdf⟩, ?_, ?_⟩
  · rw [hmapid, hlen]; exact hdv
  · intro f hf vid hv
    rw [hlen]
    exact hfb f hf vid hv
  · intro hd
    exact (hcc hd).trans (cbb_congr hi lo m _ (cvn_positions m sq).symm)

theorem meshInv_runOp (sq : ℚ → ℚ) (hi lo : ℚ) (m : Mesh) (op : Op)
    (h : meshInv hi lo m) : meshInv hi lo (runOp sq hi lo m op) := by
  cases op with
  | addVertex v =>
    obtain ⟨⟨hdv, hdf⟩, hfb, hcc⟩ := h
    rw [runOp_addVertex]
    refine ⟨⟨?_, hdf⟩, ?_, ?_⟩
    · show (m.vertices ++ [{ v with id := m.vertices.length }]).map Vertex.id
        = List.range (m.vertices ++ [{ v with id := m.vertices.length }]).length
      rw [List.map_append, hdv]
      simp [List.range_succ]
    · intro f hf vid hv
      have := hfb f hf vid hv
      simp only [List.length_append, List.length_singleton]
      omega
    · intro hd
      exact absurd hd (by simp)
  | addFace idxs => exact meshInv_addFace sq hi lo m idxs h
  | addTriangle a b c =>
    rw [runOp_addTriangle]
    exact meshInv_addFace sq hi lo m [a, b, c] h
  | addQuad a b c d =>
    rw [runOp_addQuad]
    exact meshInv_addFace sq hi lo m [a, b, c, d] h
  | setPosition id p =>
    obtain ⟨⟨hdv, hdf⟩, hfb, hcc⟩ := h
    rcases runOp_setPosition_cases sq hi lo m id p with heq | ⟨hlt, heq⟩
    · rw [heq]; exact ⟨⟨hdv, hdf⟩, hfb, hcc⟩
    · rw [heq]
      have hset : (m.vertices.set id
          { m.vertices.get ⟨id, hlt⟩ with position := p }).map Vertex.id = m.vertices.map Vertex.id := by
        rw [List.map_set]
        exact set_of_get?_eq _ _ _ (by rw [List.get?_map, List.get?_eq_get hlt]; rfl)
      refine ⟨⟨?_, hdf⟩, ?_, ?_⟩
      · show (m.vertices.set id _).map Vertex.id = List.range (m.vertices.set id _).length
        rw [hset, List.length_set]
        exact hdv
      · intro f hf vid hv
        rw [List.length_set]
        exact hfb f hf vid hv
      · intro hd
        exact absurd hd (by simp)
  | clearAll =>
    rw [runOp_clear]
    refine ⟨⟨by simp [Mesh.clear, idDense], by simp [Mesh.clear, idDense]⟩, ?_, ?_⟩
    · intro f hf vid hv
      simp [Mesh.clear] at hf
    · intro hd
      exact absurd hd (by simp [Mesh.clear])
  | faceNormalsOp => exact meshInv_cfn sq hi lo m h
  | vertexNormalsOp => exact meshInv_cvn sq hi lo m h
  | normalsOp =>
    show meshInv hi lo ((m.compute_face_normals sq).compute_vertex_normals sq)
    exact meshInv_cvn sq hi lo _ (meshInv_cfn sq hi lo m h)
  | readBoundingBox =>
    obtain ⟨⟨hdv, hdf⟩, hfb, hcc⟩ := h
    show meshInv hi lo (m.bounding_box hi lo).2
    unfold Mesh.bounding_box
    by_cases hd : m.bounding_box_dirty
    · rw [if_pos hd]
      refine ⟨⟨hdv, hdf⟩, hfb, ?_⟩
      intro _
      exact cbb_congr hi lo m _ rfl
    · rw [if_neg hd]
      exact ⟨⟨hdv, hdf⟩, hfb, hcc⟩

theorem meshInv_empty (hi lo : ℚ) : meshInv hi lo (Mesh.empty hi lo) := by
  refine ⟨⟨rfl, rfl⟩, ?_, ?_⟩
  · intro f hf vid hv
    simp [Mesh.empty] at hf
  · intro hd
    exact absurd hd (by simp [Mesh.empty])

theorem meshInv_foldl (sq : ℚ → ℚ) (hi lo : ℚ) (ops : List Op) :
    ∀ m : Mesh, meshInv hi lo m → meshInv hi lo (ops.foldl (runOp sq hi lo) m) := by
  induction ops with
  | nil => intro m h; exact h
  | cons op rest ih =>
    intro m h
    exact ih _ (meshInv_runOp sq hi lo m op h)

theorem meshInv_exec (sq : ℚ → ℚ) (hi lo : ℚ) (ops : List Op) :
    meshInv hi lo (exec sq hi lo ops) :=
  meshInv_foldl sq hi lo ops _ (meshInv_empty hi lo)

/-! ## Claim theorems -/

/-- C1: `add_face` fails with `InvalidArgument` when fewer than 3 indices
are given, fails with `OutOfRange` when some index is not a currently valid
vertex id; every failing call leaves the mesh completely unmodified (no
vertex, face, or edge appended, counts unchanged); a successful call
appends exactly one face carrying the fresh sequential id. -/
theorem add_face_error_spec (m : Mesh) (idxs : List ℕ) :
    (idxs.length < 3 →
      m.add_face idxs = .error (.invalidArgument "Face must have at least 3 vertices")) ∧
    (3 ≤ idxs.length → (∃ vid ∈ idxs, m.vertices.length ≤ vid) →
      m.add_face idxs = .error (.outOfRange "Invalid vertex index")) ∧
    (∀ (sq : ℚ → ℚ) (hi lo : ℚ) (err : MeshError),
      m.add_face idxs = .error err → runOp sq hi lo m (.addFace idxs) = m) ∧
    (∀ (m2 : Mesh) (fid : ℕ), m.add_face idxs = .ok (m2, fid) →
      fid = m.face_count ∧
      m2.vertices = m.vertices ∧ m2.edges = m.edges ∧
      m2.faces = m.faces ++ [{ Face.ofVertices idxs with id := m.face_count }] ∧
      m2.vertex_count = m.vertex_count ∧ m2.face_count = m.face_count + 1) := by
  refine ⟨fun h => add_face_short m idxs h, fun h3 hb => add_face_oob m idxs (Nat.not_lt.mpr h3) hb,
    ?_, ?_⟩
  · intro sq hi lo err herr
    show (match m.add_face idxs with
          | .ok (m2, _) => m2
          | .error _ => m) = m
    rw [herr]
  · intro m2 fid hok
    by_cases h3 : idxs.length < 3
    · rw [add_face_short m idxs h3] at hok
      exact absurd hok (by simp)
    · by_cases hb : ∀ vid ∈ idxs, vid < m.vertices.length
      · rw [add_face_ok m idxs h3 hb] at hok
        injection hok with h1
        injection h1 with hm2 hfid
        subst hm2
        subst hfid
        refine ⟨rfl, rfl, rfl, rfl, rfl, ?_⟩
        show (m.faces ++ [_]).length = m.faces.length + 1
        simp
      · push_neg at hb
        rw [add_face_oob m idxs h3 (by simpa using hb)] at hok
        exact absurd hok (by simp)

/-- Witness for C1 at concrete inputs: a 2-index call, a call with an
out-of-range index (both leaving `triMesh` unchanged), and the successful
call `[0,1,2]`. -/
theorem add_face_error_spec_witness :
    triMesh.add_face [0, 1] = .error (.invalidArgument "Face must have at least 3 vertices") ∧
    triMesh.add_face [0, 1, 7] = .error (.outOfRange "Invalid vertex index") ∧
    runOp sqModel hiModel loModel triMesh (.addFace [0, 1, 7]) = triMesh ∧
    (1 = triMesh.face_count ∧
      (runOp sqModel hiModel loModel triMesh (.addFace [0, 1, 2])).vertices = triMesh.vertices ∧
      (runOp sqModel hiModel loModel triMesh (.addFace [0, 1, 2])).edges = triMesh.edges ∧
      (runOp sqModel hiModel loModel triMesh (.addFace [0, 1, 2])).faces =
        triMesh.faces ++ [{ Face.ofVertices [0, 1, 2] with id := triMesh.face_count }] ∧
      (runOp sqModel hiModel loModel triMesh (.addFace [0, 1, 2])).vertex_count = triMesh.vertex_count ∧
      (runOp sqModel hiModel loModel triMesh (.addFace [0, 1, 2])).face_count = triMesh.face_count + 1) := by
  refine ⟨?_, ?_, ?_, ?_⟩
  · exact (add_face_error_spec triMesh [0, 1]).1 (by decide)
  · exact (add_face_error_spec triMesh [0, 1, 7]).2.1 (by decide) ⟨7, by decide, by decide⟩
  · exact (add_face_error_spec triMesh [0, 1, 7]).2.2.1 sqModel hiModel loModel
      (.outOfRange "Invalid vertex index") (by decide)
  · exact (add_face_error_spec triMesh [0, 1, 2]).2.2.2
      (runOp sqModel hiModel loModel triMesh (.addFace [0, 1, 2])) 1 (by decide)

/-- C2: after any sequence of public API calls starting from the empty
mesh (in particular any sequence of successful `add_vertex`/`add_face`
calls), IDs are dense: `vertices[i].id == i` and `faces[j].id == j` for
every valid index. -/
theorem exec_id_density (sq : ℚ → ℚ) (hi lo : ℚ) (ops : List Op) :
    (∀ i, i < (exec sq hi lo ops).vertex_count →
      ((exec sq hi lo ops).vertices.getD i Vertex.default).id = i) ∧
    (∀ j, j < (exec sq hi lo ops).face_count →
      ((exec sq hi lo ops).faces.getD j Face.default).id = j) := by
  obtain ⟨⟨hdv, hdf⟩, -, -⟩ := meshInv_exec sq hi lo ops
  constructor
  · intro i hi2
    have e2 : ((exec sq hi lo ops).vertices.map Vertex.id).get? i = some i := by
      rw [hdv]; exact List.get?_range hi2
    rw [List.get?_map] at e2
    cases hv : (exec sq hi lo ops).vertices.get? i with
    | none => rw [hv] at e2; simp at e2
    | some v =>
      rw [hv] at e2
      simp only [Option.map_some', Option.some.injEq] at e2
      simp [List.getD_eq_get?, ← List.get?_eq_getElem?, hv, e2]
  · intro j hj
    have e2 : ((exec sq hi lo ops).faces.map Face.id).get? j = some j := by
      rw [hdf]; exact List.get?_range hj
    rw [List.get?_map] at e2
    cases hv : (exec sq hi lo ops).faces.get? j with
    | none => rw [hv] at e2; simp at e2
    | some f =>
      rw [hv] at e2
      simp only [Option.map_some', Option.some.injEq] at e2
      simp [List.getD_eq_get?, ← List.get?_eq_getElem?, hv, e2]

/-- Witness for C2 on the concrete trace `triOps`. -/
theorem exec_id_density_witness :
    ((exec sqModel hiModel loModel triOps).vertices.getD 2 Vertex.default).id = 2 ∧
    ((exec sqModel hiModel loModel triOps).faces.getD 0 Face.default).id = 0 :=
  ⟨(exec_id_density sqModel hiModel loModel triOps).1 2 (by decide),
   (exec_id_density sqModel hiModel loModel triOps).2 0 (by decide)⟩

/-- C10: on every mesh built through the public API, every vertex index
stored in any face resolves to an existing vertex, so the
`Option`-returning position lookup that totalizes the C++ unchecked
`vertices_[vid]` indexing (used by `compute_face_normal`,
`compute_vertex_normals`, `surface_area`, `volume`) never returns
`none`. -/
theorem exec_face_index_lookup_isSome (sq : ℚ → ℚ) (hi lo : ℚ) (ops : List Op) :
    ∀ f ∈ (exec sq hi lo ops).faces, ∀ vid ∈ f.vertices,
      ((exec sq hi lo ops).vertexPos? vid).isSome = true := by
  intro f hf vid hv
  have hb := (meshInv_exec sq hi lo ops).2.1 f hf vid hv
  unfold Mesh.vertexPos?
  rw [List.get?_eq_get hb]
  rfl

/-- Witness for C10 on the concrete cube trace. -/
theorem exec_face_index_lookup_isSome_witness :
    ((exec sqModel hiModel loModel cubeOps).vertexPos? 7).isSome = true :=
  exec_face_index_lookup_isSome sqModel hiModel loModel cubeOps
    { Face.ofVertices [4, 6, 7] with id := 3 } (by decide) 7 (by decide)

theorem hasDuplicateFrom_eq_false (l : List ℕ) :
    ∀ seen : List ℕ, (hasDuplicateFrom seen l = false ↔ ((∀ x ∈ l, x ∉ seen) ∧ l.Nodup)) := by
  induction l with
  | nil => intro seen; simp [hasDuplicateFrom]
  | cons v rest ih =>
    intro seen
    unfold hasDuplicateFrom
    by_cases hv : v ∈ seen
    · rw [if_pos (by simpa using hv)]
      constructor
      · intro h; exact absurd h (by simp)
      · rintro ⟨h1, -⟩
        exact absurd hv (h1 v (List.mem_cons_self v rest))
    · rw [if_neg (by simpa using hv)]
      rw [ih (v :: seen)]
      simp only [List.mem_cons, List.nodup_cons]
      constructor
      · rintro ⟨h1, h2⟩
        refine ⟨?_, ?_, h2⟩
        · intro x hx
          rcases hx with rfl | hx
          · exact hv
          · intro hs
            exact (h1 x hx) (Or.inr hs)
        · intro hvr
          exact (h1 v hvr) (Or.inl rfl)
      · rintro ⟨h1, h2, h3⟩
        refine ⟨?_, h3⟩
        intro x hx
        rintro (rfl | hs)
        · exact h2 hx
        · exact (h1 x (Or.inr hx)) hs

theorem dupPos_any_iff (m : Mesh) :
    ((List.range m.vertices.length).any fun i =>
      (List.range m.vertices.length).any fun j =>
        decide (i < j) && decide (m.posAt i = m.posAt j)) = true ↔
    ∃ i j, i < j ∧ j < m.vertices.length ∧ m.posAt i = m.posAt j := by
  simp only [List.any_eq_true, List.mem_range, Bool.and_eq_true, decide_eq_true_eq]
  constructor
  · rintro ⟨i, -, j, hj, hij, heq⟩
    exact ⟨i, j, hij, hj, heq⟩
  · rintro ⟨i, j, hij, hj, heq⟩
    exact ⟨i, Nat.lt_trans hij hj, j, hj, hij, heq⟩

/-- C4: `validate_topology` is a pure, total boolean oracle (it never
throws and never mutates — in this embedding it is a function
`Mesh → Bool` reading only non-mutable state); it returns `true` exactly
when no two vertices share an identical position, every face has at least
3 vertices and no repeated vertex index, and every edge has at most 2
adjacent faces. -/
theorem validate_topology_iff (m : Mesh) :
    m.validate_topology = true ↔
      ((∀ i j, i < j → j < m.vertices.length → m.posAt i ≠ m.posAt j) ∧
       (∀ f ∈ m.faces, 3 ≤ f.vertices.length ∧ f.vertices.Nodup) ∧
       (∀ e ∈ m.edges, e.adjacent_faces.length ≤ 2)) := by
  unfold Mesh.validate_topology
  split_ifs with h1 h2 h3
  · rw [dupPos_any_iff] at h1
    obtain ⟨i, j, hij, hj, heq⟩ := h1
    constructor
    · intro h; exact absurd h (by simp)
    · rintro ⟨hnd, -, -⟩
      exact absurd heq (hnd i j hij hj)
  · constructor
    · intro h; exact absurd h (by simp)
    · rintro ⟨-, hfaces, -⟩
      rw [List.any_eq_true] at h2
      obtain ⟨f, hf, hcond⟩ := h2
      rw [Bool.or_eq_true] at hcond
      obtain ⟨hlen, hnd⟩ := hfaces f hf
      rcases hcond with hbad | hbad
      · rw [Bool.not_eq_true', Face.is_valid] at hbad
        simp only [decide_eq_false_iff_not] at hbad
        exact hbad hlen
      · have := (hasDuplicateFrom_eq_false f.vertices []).mpr ⟨by simp, hnd⟩
        rw [this] at hbad
        exact absurd hbad (by simp)
  · constructor
    · intro h; exact absurd h (by simp)
    · rintro ⟨-, -, hedges⟩
      rw [List.any_eq_true] at h3
      obtain ⟨e, he, hcond⟩ := h3
      rw [Bool.not_eq_true', Edge.is_manifold] at hcond
      simp only [decide_eq_false_iff_not] at hcond
      exact hcond (hedges e he)
  · constructor
    · intro _
      refine ⟨?_, ?_, ?_⟩
      · intro i j hij hj heq
        exact h1 (dupPos_any_iff m |>.mpr ⟨i, j, hij, hj, heq⟩)
      · intro f hf
        have hnot : ¬ (!f.is_valid || hasDuplicateFrom [] f.vertices) = true := by
          intro hbad
          exact h2 (List.any_eq_true.mpr ⟨f, hf, hbad⟩)
        rw [Bool.or_eq_true] at hnot
        push_neg at hnot
        obtain ⟨hvalid, hdup⟩ := hnot
        have hvalid2 : f.is_valid = true := by
          revert hvalid; cases f.is_valid <;> simp
        have hdup2 : hasDuplicateFrom [] f.vertices = false := by
          revert hdup; cases hasDuplicateFrom [] f.vertices <;> simp
        constructor
        · simpa [Face.is_valid] using hvalid2
        · exact ((hasDuplicateFrom_eq_false f.vertices []).mp hdup2).2
      · intro e he
        have hnot : ¬ (!e.is_manifold) = true := by
          intro hbad
          exact h3 (List.any_eq_true.mpr ⟨e, he, hbad⟩)
        have hman : e.is_manifold = true := by
          revert hnot; cases e.is_manifold <;> simp
        simpa [Edge.is_manifold] using hman
    · intro _; rfl

/-- C5 (code evidence): the clean-triangle mesh of
`tests/mesh_test.cpp::test_mesh_topology` validates, but the shipped
`add_face` never builds edge topology (the `update_edges_for_face` call is
commented out), so the mesh has 0 edges, not the 3 boundary edges the
specification and the repository's own test assert; the disabled
`update_edges_for_face` routine would have produced exactly those 3
boundary edges. -/
theorem tri_mesh_edges_empty :
    triMesh.validate_topology = true ∧
    triMesh.edges = [] ∧
    triMesh.edge_count = 0 ∧
    triMesh.face_count = 1 ∧
    (triMesh.update_edges_for_face 0).edge_count = 3 ∧
    (∀ e ∈ (triMesh.update_edges_for_face 0).edges,
      e.is_boundary = true ∧ e.adjacent_faces.length = 1) := by
  decide

/-- C9 counterexample: `add_face` accepts a face whose index list repeats
a vertex — `add_face [0,0,0]` on the 3-vertex triangle mesh succeeds and
appends a face with a triple-repeated vertex id. -/
theorem add_face_duplicate_accepted :
    (triMesh.add_face [0, 0, 0]).isOk = true ∧
    (runOp sqModel hiModel loModel triMesh (.addFace [0, 0, 0])).faces.map Face.vertices
      = [[0, 1, 2], [0, 0, 0]] ∧
    ¬ ([0, 0, 0] : List ℕ).Nodup := by
  decide

/-- C9 (amended): every face created through the public API (`add_face`;
`add_triangle`/`add_quad` delegate to it) has, at creation time, all of its
vertex indices referencing existing vertices of the owning mesh; duplicate
indices within a face are not rejected at creation (they are only reported
later by `validate_topology`). -/
theorem add_face_ok_indices_valid (m : Mesh) (idxs : List ℕ) :
    (∀ a b c, m.add_triangle a b c = m.add_face [a, b, c]) ∧
    (∀ a b c d, m.add_quad a b c d = m.add_face [a, b, c, d]) ∧
    ((m.add_face idxs).isOk = true → ∀ vid ∈ idxs, vid < m.vertices.length) := by
  refine ⟨fun a b c => rfl, fun a b c d => rfl, ?_⟩
  intro hok vid hv
  by_cases h3 : idxs.length < 3
  · rw [add_face_short m idxs h3] at hok
    exact absurd hok (by simp [Except.isOk, Except.toBool])
  · by_cases hb : ∀ v ∈ idxs, v < m.vertices.length
    · exact hb vid hv
    · push_neg at hb
      rw [add_face_oob m idxs h3 (by simpa using hb)] at hok
      exact absurd hok (by simp [Except.isOk, Except.toBool])

/-- Witness for C9's amended theorem on the successful call
`add_face [0,1,2]` over `triMesh`. -/
theorem add_face_ok_indices_valid_witness : 2 < triMesh.vertices.length :=
  (add_face_ok_indices_valid triMesh [0, 1, 2]).2.2 (by decide) 2 (by decide)

theorem foldl_add_components (g1 g2 g3 : ℕ → ℚ) :
    ∀ (n : ℕ) (a : Vector3),
      (List.range n).foldl (fun v i => (⟨v.x + g1 i, v.y + g2 i, v.z + g3 i⟩ : Vector3)) a
        = ⟨a.x + ∑ i in Finset.range n, g1 i,
           a.y + ∑ i in Finset.range n, g2 i,
           a.z + ∑ i in Finset.range n, g3 i⟩ := by
  intro n
  induction n with
  | zero => intro a; simp
  | succ k ih =>
    intro a
    rw [List.range_succ, List.foldl_append]
    simp only [List.foldl_cons, List.foldl_nil, ih]
    rw [Finset.sum_range_succ, Finset.sum_range_succ, Finset.sum_range_succ]
    simp [add_assoc]

theorem newellNormal_eq_spec (m : Mesh) (verts : List ℕ) :
    m.newellNormal verts = m.newellSpec verts := by
  unfold Mesh.newellNormal Mesh.newellSpec
  rw [foldl_add_components
    (fun i => (let v1 := m.posAt (verts.getD i 0)
               let v2 := m.posAt (verts.getD ((i + 1) % verts.length) 0)
               (v1.y - v2.y) * (v1.z + v2.z)))
    (fun i => (let v1 := m.posAt (verts.getD i 0)
               let v2 := m.posAt (verts.getD ((i + 1) % verts.length) 0)
               (v1.z - v2.z) * (v1.x + v2.x)))
    (fun i => (let v1 := m.posAt (verts.getD i 0)
               let v2 := m.posAt (verts.getD ((i + 1) % verts.length) 0)
               (v1.x - v2.x) * (v1.y + v2.y)))
    verts.length Vector3.zero]
  show (⟨Vector3.zero.x + _, Vector3.zero.y + _, Vector3.zero.z + _⟩ : Vector3) = _
  rw [show Vector3.zero.x = 0 from rfl, show Vector3.zero.y = 0 from rfl,
    show Vector3.zero.z = 0 from rfl]
  rw [zero_add, zero_add, zero_add]

/-- C6: `compute_face_normals` sets each face's normal to the
normalization of the Newell sum over the face's consecutive cyclic vertex
pairs — `(y_i - y_{i+1})(z_i + z_{i+1})` accumulated into x and the cyclic
permutations into y and z — and the zero normal for every face with fewer
than 3 vertices; nothing else in the mesh changes. -/
theorem compute_face_normals_newell (m : Mesh) (sq : ℚ → ℚ) :
    (m.compute_face_normals sq).faces = m.faces.map (fun f =>
      { f with normal :=
          if f.vertices.length < 3 then Vector3.zero
          else Vector3.normalize sq (m.newellSpec f.vertices) }) ∧
    (m.compute_face_normals sq).vertices = m.vertices ∧
    (m.compute_face_normals sq).edges = m.edges := by
  refine ⟨?_, rfl, rfl⟩
  show m.faces.map (m.compute_face_normal sq) = _
  apply List.map_congr_left
  intro f _
  unfold Mesh.compute_face_normal
  by_cases h : f.vertices.length < 3
  · rw [if_pos h, if_pos h]
    rfl
  · rw [if_neg h, if_neg h, newellNormal_eq_spec]

theorem foldl_range_add (g : ℕ → ℚ) :
    ∀ (n s : ℕ) (a : ℚ),
      (List.range' s n).foldl (fun v i => v + g i) a = a + ∑ i in Finset.Ico s (s + n), g i := by
  intro n
  induction n with
  | zero => intro s a; simp
  | succ k ih =>
    intro s a
    show (List.range' s (k + 1)).foldl (fun v i => v + g i) a = _
    rw [show List.range' s (k + 1) = s :: List.range' (s + 1) k from rfl]
    rw [List.foldl_cons, ih (s + 1) (a + g s)]
    rw [Finset.sum_eq_sum_Ico_succ_bot (by omega : s < s + (k + 1)) g]
    rw [Nat.add_right_comm s 1 k]
    ring

theorem foldl_add_of_step (c : Face → ℚ) (step : ℚ → Face → ℚ)
    (h : ∀ a f, step a f = a + c f) :
    ∀ (l : List Face) (a : ℚ), l.foldl step a = a + (l.map c).sum := by
  intro l
  induction l with
  | nil => intro a; simp
  | cons f rest ih =>
    intro a
    rw [List.foldl_cons, h a f, ih (a + c f), List.map_cons, List.sum_cons]
    ring

set_option maxRecDepth 100000 in
set_option maxHeartbeats 2000000 in
/-- C8: `volume()` equals `|Σ|/6` where `Σ` ranges over all faces with at
least 3 vertices and fan-triangulates each from vertex 0, accumulating
`dot(v0, cross(v_i, v_{i+1}))`; on the closed side-2 cube (vertices at ±1,
12 triangulated faces) it returns exactly 8. -/
theorem volume_eq_spec_and_cube :
    (∀ m : Mesh, m.volume = m.volumeSpec) ∧ cubeMesh.volume = 8 := by
  constructor
  · intro m
    show |m.faces.foldl _ 0| / 6 = _
    unfold Mesh.volumeSpec
    congr 2
    rw [foldl_add_of_step
      (fun f =>
        if f.vertices.length < 3 then 0
        else
          ∑ i in Finset.Ico 1 (f.vertices.length - 1),
            (m.posAt (f.vertices.getD 0 0)).dot
              ((m.posAt (f.vertices.getD i 0)).cross (m.posAt (f.vertices.getD (i + 1) 0))))]
    · rw [zero_add]
    · intro a f
      by_cases h : f.vertices.length < 3
      · rw [if_pos h, if_pos h, add_zero]
      · rw [if_neg h, if_neg h]
        show (List.range' 1 (f.vertices.length - 2)).foldl _ a = _
        rw [foldl_range_add
          (fun i =>
            (m.posAt (f.vertices.getD 0 0)).dot
              ((m.posAt (f.vertices.getD i 0)).cross (m.posAt (f.vertices.getD (i + 1) 0))))]
        rw [show 1 + (f.vertices.length - 2) = f.vertices.length - 1 from by omega]
  · simp only [cubeMesh, cubeOps, exec, runOp, Mesh.empty, Mesh.add_vertex, Mesh.add_face,
      Face.ofVertices, Vertex.ofPosition, List.foldl, Mesh.volume,
      Mesh.posAt, Mesh.vertexPos?, Vector3.dot, Vector3.cross, List.range',
      hiModel, loModel, sqModel]
    norm_num

theorem bounding_box_of_dirty (m : Mesh) (hi lo : ℚ) (hd : m.bounding_box_dirty = true) :
    m.bounding_box hi lo =
      (m.compute_bounding_box hi lo,
       { m with bounding_box_cache := m.compute_bounding_box hi lo, bounding_box_dirty := false }) := by
  unfold Mesh.bounding_box
  rw [if_pos hd]

theorem bounding_box_of_clean (m : Mesh) (hi lo : ℚ) (hd : m.bounding_box_dirty = false) :
    m.bounding_box hi lo = (m.bounding_box_cache, m) := by
  unfold Mesh.bounding_box
  rw [if_neg (by simp [hd])]

theorem foldl_min_le_init (l : List ℚ) : ∀ a : ℚ, l.foldl min a ≤ a := by
  induction l with
  | nil => intro a; exact le_refl a
  | cons x xs ih =>
    intro a
    exact le_trans (ih (min a x)) (min_le_left a x)

theorem foldl_min_le_mem (l : List ℚ) (b : ℚ) (hb : b ∈ l) : ∀ a : ℚ, l.foldl min a ≤ b := by
  induction l with
  | nil => exact absurd hb (List.not_mem_nil b)
  | cons x xs ih =>
    intro a
    rcases List.mem_cons.mp hb with rfl | hb2
    · exact le_trans (foldl_min_le_init xs (min a b)) (min_le_right a b)
    · exact ih hb2 (min a x)

theorem foldl_min_mem_or (l : List ℚ) : ∀ a : ℚ, l.foldl min a = a ∨ l.foldl min a ∈ l := by
  induction l with
  | nil => intro a; exact Or.inl rfl
  | cons x xs ih =>
    intro a
    rcases ih (min a x) with h | h
    · rcases le_total a x with hax | hxa
      · rw [List.foldl_cons]; rw [h, min_eq_left hax]; exact Or.inl rfl
      · rw [List.foldl_cons]; rw [h, min_eq_right hxa]
        exact Or.inr (List.mem_cons_self x xs)
    · exact Or.inr (List.mem_cons_of_mem x h)

theorem foldl_min_isMinOf (l : List ℚ) (a : ℚ) (hne : l ≠ []) (hb : ∀ b ∈ l, b ≤ a) :
    isMinOf (l.foldl min a) l := by
  constructor
  · rcases foldl_min_mem_or l a with h | h
    · obtain ⟨b, hbmem⟩ := List.exists_mem_of_ne_nil l hne
      have h1 := foldl_min_le_mem l b hbmem a
      rw [h] at h1 ⊢
      rw [le_antisymm h1 (hb b hbmem)]
      exact hbmem
    · exact h
  · intro b hbmem
    exact foldl_min_le_mem l b hbmem a

theorem foldl_max_le_init (l : List ℚ) : ∀ a : ℚ, a ≤ l.foldl max a := by
  induction l with
  | nil => intro a; exact le_refl a
  | cons x xs ih =>
    intro a
    exact le_trans (le_max_left a x) (ih (max a x))

theorem foldl_max_le_mem (l : List ℚ) (b : ℚ) (hb : b ∈ l) : ∀ a : ℚ, b ≤ l.foldl max a := by
  induction l with
  | nil => exact absurd hb (List.not_mem_nil b)
  | cons x xs ih =>
    intro a
    rcases List.mem_cons.mp hb with rfl | hb2
    · exact le_trans (le_max_right a b) (foldl_max_le_init xs (max a b))
    · exact ih hb2 (max a x)

theorem foldl_max_mem_or (l : List ℚ) : ∀ a : ℚ, l.foldl max a = a ∨ l.foldl max a ∈ l := by
  induction l with
  | nil => intro a; exact Or.inl rfl
  | cons x xs ih =>
    intro a
    rcases ih (max a x) with h | h
    · rcases le_total a x with hax | hxa
      · rw [List.foldl_cons]; rw [h, max_eq_right hax]
        exact Or.inr (List.mem_cons_self x xs)
      · rw [List.foldl_cons]; rw [h, max_eq_left hxa]; exact Or.inl rfl
    · exact Or.inr (List.mem_cons_of_mem x h)

theorem foldl_max_isMaxOf (l : List ℚ) (a : ℚ) (hne : l ≠ []) (hb : ∀ b ∈ l, a ≤ b) :
    isMaxOf (l.foldl max a) l := by
  constructor
  · rcases foldl_max_mem_or l a with h | h
    · obtain ⟨b, hbmem⟩ := List.exists_mem_of_ne_nil l hne
      have h1 := foldl_max_le_mem l b hbmem a
      rw [h] at h1 ⊢
      rw [le_antisymm (hb b hbmem) h1]
      exact hbmem
    · exact h
  · intro b hbmem
    exact foldl_max_le_mem l b hbmem a

theorem foldl_expand_components (ps : List Vector3) :
    ∀ b : BoundingBox,
      ps.foldl BoundingBox.expand b =
        ⟨⟨(ps.map Vector3.x).foldl min b.min_point.x,
          (ps.map Vector3.y).foldl min b.min_point.y,
          (ps.map Vector3.z).foldl min b.min_point.z⟩,
         ⟨(ps.map Vector3.x).foldl max b.max_point.x,
          (ps.map Vector3.y).foldl max b.max_point.y,
          (ps.map Vector3.z).foldl max b.max_point.z⟩⟩ := by
  induction ps with
  | nil => intro b; rfl
  | cons p rest ih =>
    intro b
    rw [List.foldl_cons, ih (b.expand p)]
    rfl

/-- C3: `bounding_box()` returns the componentwise min/max envelope of the
current vertex positions (the reset state when there are no vertices),
recomputing exactly when the dirty flag is set and clearing the flag;
`add_vertex`, the mutable `get_vertex` accessor, and `clear` all set the
dirty flag, and on every mesh reachable through the public API the
returned box equals the box recomputed from the current vertices — never
stale. -/
theorem bounding_box_spec (sq : ℚ → ℚ) (hi lo : ℚ) (m : Mesh) (vtx : Vertex) (id : ℕ)
    (ops : List Op) :
    (m.vertices = [] → m.compute_bounding_box hi lo = BoundingBox.reset hi lo) ∧
    (m.vertices ≠ [] → (∀ v ∈ m.vertices, inLimits hi lo v.position) →
      isMinMaxBoxOf (m.compute_bounding_box hi lo) (m.vertices.map Vertex.position)) ∧
    (m.bounding_box_dirty = true →
      (m.bounding_box hi lo).1 = m.compute_bounding_box hi lo ∧
      (m.bounding_box hi lo).2.bounding_box_dirty = false ∧
      (m.bounding_box hi lo).2.bounding_box_cache = m.compute_bounding_box hi lo) ∧
    (m.bounding_box_dirty = false → m.bounding_box hi lo = (m.bounding_box_cache, m)) ∧
    ((m.add_vertex vtx).1.bounding_box_dirty = true) ∧
    (∀ (m2 : Mesh) (v : Vertex), m.get_vertex_mut id = .ok (m2, v) →
      m2.bounding_box_dirty = true) ∧
    (m.clear.bounding_box_dirty = true) ∧
    (((exec sq hi lo ops).bounding_box hi lo).1 =
      (exec sq hi lo ops).compute_bounding_box hi lo) := by
  refine ⟨?_, ?_, ?_, ?_, rfl, ?_, rfl, ?_⟩
  · intro h
    unfold Mesh.compute_bounding_box
    rw [h]
    rfl
  · intro hne hlim
    rw [cbb_eq_fold_positions, foldl_expand_components]
    have hxne : (m.vertices.map Vertex.position).map Vector3.x ≠ [] := by
      simp [hne]
    have hyne : (m.vertices.map Vertex.position).map Vector3.y ≠ [] := by
      simp [hne]
    have hzne : (m.vertices.map Vertex.position).map Vector3.z ≠ [] := by
      simp [hne]
    have hxhi : ∀ b ∈ (m.vertices.map Vertex.position).map Vector3.x, b ≤ hi := by
      intro b hbm
      obtain ⟨p, hp, rfl⟩ := List.mem_map.mp hbm
      obtain ⟨v, hv, rfl⟩ := List.mem_map.mp hp
      exact (hlim v hv).2.1
    have hyhi : ∀ b ∈ (m.vertices.map Vertex.position).map Vector3.y, b ≤ hi := by
      intro b hbm
      obtain ⟨p, hp, rfl⟩ := List.mem_map.mp hbm
      obtain ⟨v, hv, rfl⟩ := List.mem_map.mp hp
      exact (hlim v hv).2.2.2.1
    have hzhi : ∀ b ∈ (m.vertices.map Vertex.position).map Vector3.z, b ≤ hi := by
      intro b hbm
      obtain ⟨p, hp, rfl⟩ := List.mem_map.mp hbm
      obtain ⟨v, hv, rfl⟩ := List.mem_map.mp hp
      exact (hlim v hv).2.2.2.2.2
    have hxlo : ∀ b ∈ (m.vertices.map Vertex.position).map Vector3.x, lo ≤ b := by
      intro b hbm
      obtain ⟨p, hp, rfl⟩ := List.mem_map.mp hbm
      obtain ⟨v, hv, rfl⟩ := List.mem_map.mp hp
      exact (hlim v hv).1
    have hylo : ∀ b ∈ (m.vertices.map Vertex.position).map Vector3.y, lo ≤ b := by
      intro b hbm
      obtain ⟨p, hp, rfl⟩ := List.mem_map.mp hbm
      obtain ⟨v, hv, rfl⟩ := List.mem_map.mp hp
      exact (hlim v hv).2.2.1
    have hzlo : ∀ b ∈ (m.vertices.map Vertex.position).map Vector3.z, lo ≤ b := by
      intro b hbm
      obtain ⟨p, hp, rfl⟩ := List.mem_map.mp hbm
      obtain ⟨v, hv, rfl⟩ := List.mem_map.mp hp
      exact (hlim v hv).2.2.2.2.1
    exact ⟨foldl_min_isMinOf _ hi hxne hxhi, foldl_min_isMinOf _ hi hyne hyhi,
      foldl_min_isMinOf _ hi hzne hzhi, foldl_max_isMaxOf _ lo hxne hxlo,
      foldl_max_isMaxOf _ lo hyne hylo, foldl_max_isMaxOf _ lo hzne hzlo⟩
  · intro hd
    rw [bounding_box_of_dirty m hi lo hd]
    exact ⟨rfl, rfl, rfl⟩
  · intro hd
    exact bounding_box_of_clean m hi lo hd
  · intro m2 v hok
    unfold Mesh.get_vertex_mut at hok
    by_cases h : id < m.vertices.length
    · rw [dif_pos h] at hok
      injection hok with h1
      injection h1 with hm2 hv
      rw [← hm2]
    · rw [dif_neg h] at hok
      exact absurd hok (by simp)
  · cases hd : (exec sq hi lo ops).bounding_box_dirty
    · rw [bounding_box_of_clean _ hi lo hd]
      exact (meshInv_exec sq hi lo ops).2.2 hd
    · rw [bounding_box_of_dirty _ hi lo hd]

/-- Witness for C3: the empty mesh, the spec's three-point example
`{(-1,-2,-3),(4,5,6),(2,1,0)}`, the dirty triangle mesh, and concrete
dirty-flag-setting calls. -/
theorem bounding_box_spec_witness :
    ((Mesh.empty hiModel loModel).compute_bounding_box hiModel loModel =
      BoundingBox.reset hiModel loModel) ∧
    isMinMaxBoxOf
      ((exec sqModel hiModel loModel
        [.addVertex (Vertex.ofPosition ⟨-1, -2, -3⟩),
         .addVertex (Vertex.ofPosition ⟨4, 5, 6⟩),
         .addVertex (Vertex.ofPosition ⟨2, 1, 0⟩)]).compute_bounding_box hiModel loModel)
      ((exec sqModel hiModel loModel
        [.addVertex (Vertex.ofPosition ⟨-1, -2, -3⟩),
         .addVertex (Vertex.ofPosition ⟨4, 5, 6⟩),
         .addVertex (Vertex.ofPosition ⟨2, 1, 0⟩)]).vertices.map Vertex.position) ∧
    ((triMesh.bounding_box hiModel loModel).1 = triMesh.compute_bounding_box hiModel loModel ∧
     (triMesh.bounding_box hiModel loModel).2.bounding_box_dirty = false ∧
     (triMesh.bounding_box hiModel loModel).2.bounding_box_cache =
       triMesh.compute_bounding_box hiModel loModel) ∧
    (((triMesh.bounding_box hiModel loModel).2).bounding_box hiModel loModel =
      (((triMesh.bounding_box hiModel loModel).2).bounding_box_cache,
       (triMesh.bounding_box hiModel loModel).2)) ∧
    ((triMesh.add_vertex Vertex.default).1.bounding_box_dirty = true) ∧
    ((triMesh.get_vertex_mut 0).isOk = true →
      ∀ (m2 : Mesh) (v : Vertex), triMesh.get_vertex_mut 0 = .ok (m2, v) →
        m2.bounding_box_dirty = true) ∧
    (triMesh.clear.bounding_box_dirty = true) ∧
    (((exec sqModel hiModel loModel triOps).bounding_box hiModel loModel).1 =
      (exec sqModel hiModel loModel triOps).compute_bounding_box hiModel loModel) := by
  refine ⟨?_, ?_, ?_, ?_, ?_, ?_, ?_, ?_⟩
  · exact (bounding_box_spec sqModel hiModel loModel (Mesh.empty hiModel loModel)
      Vertex.default 0 []).1 rfl
  · exact (bounding_box_spec sqModel hiModel loModel _ Vertex.default 0 []).2.1
      (by decide) (by decide)
  · exact (bounding_box_spec sqModel hiModel loModel triMesh Vertex.default 0 []).2.2.1
      (by decide)
  · exact (bounding_box_spec sqModel hiModel loModel
      (triMesh.bounding_box hiModel loModel).2 Vertex.default 0 []).2.2.2.1 (by decide)
  · exact (bounding_box_spec sqModel hiModel loModel triMesh Vertex.default 0 []).2.2.2.2.1
  · intro _
    exact (bounding_box_spec sqModel hiModel loModel triMesh Vertex.default 0 []).2.2.2.2.2.1
  · exact (bounding_box_spec sqModel hiModel loModel triMesh Vertex.default 0 []).2.2.2.2.2.2.1
  · exact (bounding_box_spec sqModel hiModel loModel triMesh Vertex.default 0
      triOps).2.2.2.2.2.2.2

theorem posAt_eq (m : Mesh) (vid : ℕ) :
    m.posAt vid = ((m.vertices.map Vertex.position).get? vid).getD Vector3.zero := by
  unfold Mesh.posAt Mesh.vertexPos?
  rw [List.get?_map]

theorem posAt_congr (m1 m2 : Mesh)
    (h : m1.vertices.map Vertex.position = m2.vertices.map Vertex.position) :
    ∀ vid, m1.posAt vid = m2.posAt vid := by
  intro vid
  rw [posAt_eq, posAt_eq, h]

theorem newellNormal_congr (m1 m2 : Mesh)
    (h : m1.vertices.map Vertex.position = m2.vertices.map Vertex.position) (verts : List ℕ) :
    m1.newellNormal verts = m2.newellNormal verts := by
  unfold Mesh.newellNormal
  have hstep : (fun (n : Vector3) (i : ℕ) =>
      let v1 := m1.posAt (verts.getD i 0)
      let v2 := m1.posAt (verts.getD ((i + 1) % verts.length) 0)
      (⟨n.x + (v1.y - v2.y) * (v1.z + v2.z),
        n.y + (v1.z - v2.z) * (v1.x + v2.x),
        n.z + (v1.x - v2.x) * (v1.y + v2.y)⟩ : Vector3))
      = (fun (n : Vector3) (i : ℕ) =>
      let v1 := m2.posAt (verts.getD i 0)
      let v2 := m2.posAt (verts.getD ((i + 1) % verts.length) 0)
      (⟨n.x + (v1.y - v2.y) * (v1.z + v2.z),
        n.y + (v1.z - v2.z) * (v1.x + v2.x),
        n.z + (v1.x - v2.x) * (v1.y + v2.y)⟩ : Vector3)) := by
    funext n i
    simp only [posAt_congr m1 m2 h]
  rw [hstep]

theorem cfn_congr (m1 m2 : Mesh) (sq : ℚ → ℚ)
    (h : m1.vertices.map Vertex.position = m2.vertices.map Vertex.position) (f : Face) :
    m1.compute_face_normal sq f = m2.compute_face_normal sq f := by
  unfold Mesh.compute_face_normal
  rw [newellNormal_congr m1 m2 h f.vertices]

theorem cfn_idem (m : Mesh) (sq : ℚ → ℚ) (f : Face) :
    m.compute_face_normal sq (m.compute_face_normal sq f) = m.compute_face_normal sq f := by
  cases f with
  | mk verts n mat id =>
    unfold Mesh.compute_face_normal
    by_cases h : verts.length < 3
    · simp only [h, if_true, if_pos h]
    · simp only [h, if_false, if_neg h]

theorem cn_positions (m : Mesh) (sq : ℚ → ℚ) :
    (m.compute_normals sq).vertices.map Vertex.position = m.vertices.map Vertex.position := by
  show ((m.compute_face_normals sq).compute_vertex_normals sq).vertices.map Vertex.position = _
  rw [cvn_positions]
  rfl

/-- C7: `compute_normals()` is idempotent — running it a second time
changes nothing (face normals depend only on vertex positions, which
`compute_normals` never modifies, and vertex normals are reset to zero
before each accumulation). -/
theorem compute_normals_idempotent (m : Mesh) (sq : ℚ → ℚ) :
    (m.compute_normals sq).compute_normals sq = m.compute_normals sq := by
  have hpos := cn_positions m sq
  have hfaces2 : (m.compute_normals sq).faces = m.faces.map (m.compute_face_normal sq) := rfl
  have hA : ((m.compute_normals sq).compute_face_normals sq).faces
      = (m.compute_normals sq).faces := by
    show (m.compute_normals sq).faces.map ((m.compute_normals sq).compute_face_normal sq)
      = (m.compute_normals sq).faces
    rw [List.map_congr_left (fun f _ => cfn_congr (m.compute_normals sq) m sq hpos f)]
    rw [hfaces2, List.map_map]
    exact List.map_congr_left (fun f _ => cfn_idem m sq f)
  have hreset : resetNormals (m.compute_normals sq).vertices = resetNormals m.vertices := by
    unfold resetNormals
    rw [show (m.compute_normals sq).vertices
        = normalizeAll sq (accumNormals (m.compute_face_normals sq).faces
            (resetNormals m.vertices)) from rfl]
    rw [map_normalizeAll (fun v => ({ v with normal := Vector3.splat 0 } : Vertex))
        (fun v n => rfl),
      map_accumNormals (fun v => ({ v with normal := Vector3.splat 0 } : Vertex))
        (fun v n => rfl),
      map_resetNormals (fun v => ({ v with normal := Vector3.splat 0 } : Vertex))
        (fun v n => rfl)]
  apply Mesh.ext
  · show normalizeAll sq (accumNormals ((m.compute_normals sq).compute_face_normals sq).faces
      (resetNormals ((m.compute_normals sq).compute_face_normals sq).vertices))
      = (m.compute_normals sq).vertices
    rw [hA]
    rw [show ((m.compute_normals sq).compute_face_normals sq).vertices
        = (m.compute_normals sq).vertices from rfl]
    rw [hreset, hfaces2]
    rfl
  · rfl
  · show ((m.compute_normals sq).compute_face_normals sq).faces = (m.compute_normals sq).faces
    exact hA
  · rfl
  · rfl
  · rfl
  · rfl

/-- Witness for C4 on the concrete clean triangle mesh: the validated
face is well-formed. -/
theorem validate_topology_iff_witness :
    3 ≤ ({ Face.ofVertices [0, 1, 2] with id := 0 } : Face).vertices.length ∧
    ({ Face.ofVertices [0, 1, 2] with id := 0 } : Face).vertices.Nodup :=
  ((validate_topology_iff triMesh).mp (by decide)).2.1
    { Face.ofVertices [0, 1, 2] with id := 0 } (by decide)
